import Mathlib

/-!
Verification development for the playoff-simulator core of `src/app.py`
(NFL franchise rankings dashboard, "Playoff Simulator" tab).

The Streamlit script is rerun on every interaction: it reads the widget
state stored in `st.session_state` (checkboxes, selectboxes) plus the
auto-keyed Super Bowl radio, derives the stage selections, validates the
per-stage cardinalities (calling `st.stop()` when a stage is incomplete),
accumulates flat bonus points per team, and finally renders a ranking
delta table.  We embed that script as pure functions:

* `SessionState` models `st.session_state` as a string-keyed association
  list (checkbox values are booleans, selectbox values are strings)
  together with `sbStored`, the auto-generated widget slot of the
  Super Bowl `st.radio` (which has no user `key=`, so its slot does not
  match any of the `AFC_`/`NFC_`/`sb_` key shapes).
* `runSim` is the gated bracket state machine (lines 289-580 of app.py):
  it either stops at a `StopPoint` (the `st.stop()` calls) or produces
  the complete `Picks`.
* `bonusPoints` is the scoring engine (the chain of
  `simulation.loc[isin(...), "Bonus Points"] += k` updates).
* `rankedResults` / `simulationResults` embed the results section
  (lines 649-717): merge of bonuses, `fillna(0)`, simulated totals,
  the two descending sorts, 1-based ranks, rank change and arrows.

Strings are compared by code points exactly as Python compares `str`
values; `lexLe` and `isPre` are code-point implementations of Python
string ordering and `str.startswith`, written so that the kernel can
evaluate them on concrete inputs.  `pandas.sort_values` is called with
its default `kind="quicksort"`, which guarantees only a permutation
sorted by the key (it is not stable); `IsSortOutputBy` captures exactly
that guarantee, while `sortDescBy` fixes one concrete realization used
by the executable pipeline.
-/

namespace NFLSim

/-- Code-point lexicographic comparison of character lists; this is the
ordering Python uses to sort strings. -/
def lexLe : List Char → List Char → Bool
  | [], _ => true
  | _ :: _, [] => false
  | a :: as, b :: bs =>
    if a.toNat < b.toNat then true
    else if b.toNat < a.toNat then false
    else lexLe as bs

/-- Python string ordering, as a relation on Lean strings. -/
def strLe (a b : String) : Prop := lexLe a.data b.data = true

instance : DecidableRel strLe := fun a b => by unfold strLe; infer_instance

/-- Embedding of `sort_values` on a column of strings (ascending). -/
def sortedStrings (l : List String) : List String := List.insertionSort strLe l

/-- Code-point list-level test used to embed `str.startswith`. -/
def isPre : List Char → List Char → Bool
  | [], _ => true
  | _ :: _, [] => false
  | a :: as, b :: bs => if a.toNat = b.toNat then isPre as bs else false

/-- Embedding of Python `key.startswith(p)`. -/
def keyStarts (k p : String) : Bool := isPre p.data k.data

/-- One row of `teams_latest`: team name, division, and the base score
("Total Team Points") of the most recent year. -/
structure TeamRow where
  team : String
  division : String
  basePoints : Int
deriving DecidableEq

/-- Conference of a team: the first 3 characters of its division name
(`teams_latest["Division"].str[:3]` in app.py). -/
def conference (t : TeamRow) : String := String.mk (t.division.data.take 3)

/-- Worker for `dedupByTeam`: keeps the first row for each team name. -/
def dedupGo (seen : List String) : List TeamRow → List TeamRow
  | [] => []
  | r :: rest =>
    if r.team ∈ seen then dedupGo seen rest
    else r :: dedupGo (r.team :: seen) rest

/-- Embedding of `drop_duplicates(subset="Team")`: keep the first row per
team name. -/
def dedupByTeam (l : List TeamRow) : List TeamRow := dedupGo [] l

/-- A value stored in `st.session_state`: checkbox state (`b`) or
selectbox state (`s`). -/
inductive SVal where
  | b : Bool → SVal
  | s : String → SVal
deriving DecidableEq

/-- The Streamlit session state: the keyed widget entries plus the
auto-keyed slot of the Super Bowl radio (that widget has no `key=`
argument, so its slot is not reachable by the key-prefix scan of the
reset handler). -/
structure SessionState where
  entries : List (String × SVal)
  sbStored : Option String
deriving DecidableEq

/-- Keyed lookup in the session state (first matching entry wins, as in
a Python dict where keys are unique). -/
def lookupKey (st : SessionState) (k : String) : Option SVal :=
  (st.entries.find? (fun kv => kv.1 == k)).map (fun kv => kv.2)

/-- Read a checkbox: absent or non-boolean keys read as `false`, the
default state of `st.checkbox`. -/
def getBool (st : SessionState) (k : String) : Bool :=
  match lookupKey st k with
  | some (SVal.b v) => v
  | _ => false

/-- Read a selectbox: absent or non-string keys read as `none`
(the widget then shows its default option). -/
def getStr (st : SessionState) (k : String) : Option String :=
  match lookupKey st k with
  | some (SVal.s v) => some v
  | _ => none

/-- Store a boolean widget value under a key (dict assignment; the new
entry shadows any older one). -/
def setBoolKey (st : SessionState) (k : String) (v : Bool) : SessionState :=
  { entries := (k, SVal.b v) :: st.entries, sbStored := st.sbStored }

/-- The session state of a fresh simulation (no widget entries). -/
def emptySession : SessionState := { entries := [], sbStored := none }

/-- Embedding of the Reset Simulation handler (app.py lines 247-256):
delete every session key starting with `AFC_`, `NFC_` or `sb_`.  Note
that the division-winner selectboxes use keys of the form
`division_{div}` and the Super Bowl radio has no user key, so neither is
touched by this scan. -/
def resetSim (st : SessionState) : SessionState :=
  { entries := st.entries.filter
      (fun kv => !(keyStarts kv.1 ("AFC_") || keyStarts kv.1 ("NFC_")
                    || keyStarts kv.1 ("sb_"))),
    sbStored := st.sbStored }

/-- `sorted(teams_latest["Division"].dropna().unique())`. -/
def divisionsOf (teams : List TeamRow) : List String :=
  sortedStrings ((teams.map (fun t => t.division)).dedup)

/-- The sorted team names of one division (options of its selectbox). -/
def teamsInDivision (teams : List TeamRow) (div : String) : List String :=
  sortedStrings
    (((teams.filter (fun t => decide (t.division = div)))).map (fun t => t.team))

/-- The division-winner selectbox with key `division_{div}`: the stored
value counts as a pick only when it is one of the option team names;
the sentinel option is the dash, and Streamlit discards a stored value
that is not among the current options, both of which read as `none`. -/
def divisionWinnerFor (teams : List TeamRow) (st : SessionState)
    (div : String) : Option String :=
  match getStr st (("division_") ++ div) with
  | some sel => if sel ∈ teamsInDivision teams div then some sel else none
  | none => none

/-- The `division_winners` list accumulated over the sorted divisions. -/
def divisionWinners (teams : List TeamRow) (st : SessionState) : List String :=
  (divisionsOf teams).filterMap (divisionWinnerFor teams st)

/-- Wild-card candidate pool for one conference: teams not already a
division winner, restricted to the conference, sorted by name
(app.py lines 326-344). -/
def wildcardPool (teams : List TeamRow) (dw : List String) (c : String) :
    List String :=
  sortedStrings
    (((teams.filter (fun t => !(decide (t.team ∈ dw)))).filter
        (fun t => decide (conference t = c))).map (fun t => t.team))

/-- The checked wild-card boxes of one conference (keys `{c}_wc_{team}`). -/
def wildcardsFor (teams : List TeamRow) (st : SessionState)
    (dw : List String) (c : String) : List String :=
  (wildcardPool teams dw c).filter (fun t => getBool st (c ++ ("_wc_") ++ t))

/-- Candidate pool of a later round: the members of `sel` restricted to
the conference, sorted by name (each round rebuilds this from
`teams_latest`). -/
def roundPool (teams : List TeamRow) (sel : List String) (c : String) :
    List String :=
  sortedStrings
    (((teams.filter (fun t => decide (t.team ∈ sel))).filter
        (fun t => decide (conference t = c))).map (fun t => t.team))

/-- The checked boxes of one later round (keys `{c}{mid}{team}` with
`mid` one of `_wc_win_`, `_div_win_`, `_conf_champ_`). -/
def checkboxRound (teams : List TeamRow) (st : SessionState)
    (sel : List String) (c : String) (mid : String) : List String :=
  (roundPool teams sel c).filter (fun t => getBool st (c ++ mid ++ t))

/-- The Super Bowl `st.radio`: returns the stored auto-keyed selection
when it is still among the options, otherwise the first option (the
default index of `st.radio` is 0).  The empty-list fallback is
unreachable in the script because the radio is only rendered after the
champions list has been validated to have exactly 2 entries. -/
def radioSelect (options : List String) (stored : Option String) : String :=
  match stored with
  | some v => if v ∈ options then v else options.headD ("")
  | none => options.headD ("")

/-- The places where the script calls `st.stop()` (stage incomplete). -/
inductive StopPoint where
  | divisionWinnersIncomplete : StopPoint
  | wildCards : String → StopPoint
  | wcRound : String → StopPoint
  | divisionalRound : String → StopPoint
  | confChampionship : String → StopPoint
  | superBowlPair : StopPoint
deriving DecidableEq

/-- The complete set of selections of one simulation run (the PickSet of
the spec). -/
structure Picks where
  divisionWinners : List String
  wildcards : List String
  wcRoundWinners : List String
  divRoundWinners : List String
  confChampions : List String
  sbWinner : String
deriving DecidableEq

/-- Final stage of the gated run (app.py lines 564-580): the script
re-validates that exactly 2 conference champions exist, then the radio
picks the Super Bowl champion among them and the complete PickSet is
produced.  The stage parameters are the values the script accumulated in
its local variables; the staged functions recompute the same pure
expressions instead of binding locals. -/
def superBowlStep (st : SessionState)
    (dw wc ww dv cc : List String) : Except StopPoint Picks :=
  if cc.length = 2 then
    Except.ok
      { divisionWinners := dw, wildcards := wc, wcRoundWinners := ww,
        divRoundWinners := dv, confChampions := cc,
        sbWinner := radioSelect cc st.sbStored }
  else Except.error StopPoint.superBowlPair

/-- Conference-champion stage (app.py lines 510-558): exactly 1 pick per
conference, validated AFC first, out of the divisional-round winners. -/
def confChampStep (teams : List TeamRow) (st : SessionState)
    (dw wc ww dv : List String) : Except StopPoint Picks :=
  if (checkboxRound teams st dv ("AFC") ("_conf_champ_")).length = 1 then
    if (checkboxRound teams st dv ("NFC") ("_conf_champ_")).length = 1 then
      superBowlStep st dw wc ww dv
        (checkboxRound teams st dv ("AFC") ("_conf_champ_")
          ++ checkboxRound teams st dv ("NFC") ("_conf_champ_"))
    else Except.error (StopPoint.confChampionship ("NFC"))
  else Except.error (StopPoint.confChampionship ("AFC"))

/-- Divisional-round stage (app.py lines 454-508): exactly 2 picks per
conference out of the wild-card-round winners. -/
def divRoundStep (teams : List TeamRow) (st : SessionState)
    (dw wc ww : List String) : Except StopPoint Picks :=
  if (checkboxRound teams st ww ("AFC") ("_div_win_")).length = 2 then
    if (checkboxRound teams st ww ("NFC") ("_div_win_")).length = 2 then
      confChampStep teams st dw wc ww
        (checkboxRound teams st ww ("AFC") ("_div_win_")
          ++ checkboxRound teams st ww ("NFC") ("_div_win_"))
    else Except.error (StopPoint.divisionalRound ("NFC"))
  else Except.error (StopPoint.divisionalRound ("AFC"))

/-- Wild-card-round stage (app.py lines 397-452): exactly 4 picks per
conference out of the playoff teams (division winners plus wild
cards). -/
def wcRoundStep (teams : List TeamRow) (st : SessionState)
    (dw wc : List String) : Except StopPoint Picks :=
  if (checkboxRound teams st (dw ++ wc) ("AFC") ("_wc_win_")).length = 4 then
    if (checkboxRound teams st (dw ++ wc) ("NFC") ("_wc_win_")).length = 4 then
      divRoundStep teams st dw wc
        (checkboxRound teams st (dw ++ wc) ("AFC") ("_wc_win_")
          ++ checkboxRound teams st (dw ++ wc) ("NFC") ("_wc_win_"))
    else Except.error (StopPoint.wcRound ("NFC"))
  else Except.error (StopPoint.wcRound ("AFC"))

/-- Wild-card stage (app.py lines 323-373): exactly 3 picks per
conference out of the non-division-winner pool. -/
def wildcardStep (teams : List TeamRow) (st : SessionState)
    (dw : List String) : Except StopPoint Picks :=
  if (wildcardsFor teams st dw ("AFC")).length = 3 then
    if (wildcardsFor teams st dw ("NFC")).length = 3 then
      wcRoundStep teams st dw
        (wildcardsFor teams st dw ("AFC") ++ wildcardsFor teams st dw ("NFC"))
    else Except.error (StopPoint.wildCards ("NFC"))
  else Except.error (StopPoint.wildCards ("AFC"))

/-- The gated bracket state machine: the straight-line body of the
simulator tab (app.py lines 289-580).  Each `Except.error` is one of the
`st.stop()` calls; the conferences are validated in the order AFC then
NFC exactly as the `for conference in ["AFC", "NFC"]` loops do. -/
def runSim (teams : List TeamRow) (st : SessionState) : Except StopPoint Picks :=
  if (divisionWinners teams st).length < (divisionsOf teams).length then
    Except.error StopPoint.divisionWinnersIncomplete
  else wildcardStep teams st (divisionWinners teams st)

/-- The stage selections derived from the current widget state without
the completeness gating: the current PickSet of the machine.  Used to
state PickSet-level properties (reset, invalid selections). -/
def derivedPickSet (teams : List TeamRow) (st : SessionState) : Picks :=
  let dw := divisionWinners teams st
  let wc := wildcardsFor teams st dw ("AFC") ++ wildcardsFor teams st dw ("NFC")
  let ww := checkboxRound teams st (dw ++ wc) ("AFC") ("_wc_win_")
            ++ checkboxRound teams st (dw ++ wc) ("NFC") ("_wc_win_")
  let dv := checkboxRound teams st ww ("AFC") ("_div_win_")
            ++ checkboxRound teams st ww ("NFC") ("_div_win_")
  let cc := checkboxRound teams st dv ("AFC") ("_conf_champ_")
            ++ checkboxRound teams st dv ("NFC") ("_conf_champ_")
  { divisionWinners := dw, wildcards := wc, wcRoundWinners := ww,
    divRoundWinners := dv, confChampions := cc,
    sbWinner := radioSelect cc st.sbStored }

/-- The bonus ledger of the scoring engine: the net effect of the chain
of `simulation.loc[simulation["Team"].isin(stage), "Bonus Points"] += k`
updates (app.py lines 378-392, 449-452, 505-508, 555-558, 577-580).
Each stage adds its flat bonus once to every team appearing in its
selection; the Super Bowl stage uses an equality test
(`simulation["Team"] == sb_winner`). -/
def bonusPoints (p : Picks) (team : String) : Int :=
  (if team ∈ p.divisionWinners then 2 else 0)
  + (if team ∈ p.wildcards then 1 else 0)
  + (if team ∈ p.wcRoundWinners then 2 else 0)
  + (if team ∈ p.divRoundWinners then 4 else 0)
  + (if team ∈ p.confChampions then 11 else 0)
  + (if p.sbWinner = team then 29 else 0)

/-- The ordered bracket stages of the spec (section 3, BracketStage). -/
inductive BracketStage where
  | divisionWinnersStage : BracketStage
  | wildCardsStage : BracketStage
  | wcRoundWinnersStage : BracketStage
  | divRoundWinnersStage : BracketStage
  | confChampionsStage : BracketStage
  | superBowlStage : BracketStage
deriving DecidableEq

/-- The fixed bonus table of the spec (section 4.2). -/
def bonusTable : BracketStage → Int
  | BracketStage.divisionWinnersStage => 2
  | BracketStage.wildCardsStage => 1
  | BracketStage.wcRoundWinnersStage => 2
  | BracketStage.divRoundWinnersStage => 4
  | BracketStage.confChampionsStage => 11
  | BracketStage.superBowlStage => 29

/-- The selection a PickSet records at each stage (the Super Bowl stage
holds exactly its single champion). -/
def stageSelection (p : Picks) : BracketStage → List String
  | BracketStage.divisionWinnersStage => p.divisionWinners
  | BracketStage.wildCardsStage => p.wildcards
  | BracketStage.wcRoundWinnersStage => p.wcRoundWinners
  | BracketStage.divRoundWinnersStage => p.divRoundWinners
  | BracketStage.confChampionsStage => p.confChampions
  | BracketStage.superBowlStage => [p.sbWinner]

/-- All bracket stages, in order. -/
def allStages : List BracketStage :=
  [BracketStage.divisionWinnersStage, BracketStage.wildCardsStage,
    BracketStage.wcRoundWinnersStage, BracketStage.divRoundWinnersStage,
    BracketStage.confChampionsStage, BracketStage.superBowlStage]

/-- The bonus ledger as the spec words it (section 4.2,
`computeBonusLedger`): for every team, the sum of the bonuses of exactly
the stages in which that team appears; teams absent from all stages get
0.  This definition follows the words of the spec and is compared with
the source-translated `bonusPoints`. -/
def computeBonusLedger (p : Picks) (team : String) : Int :=
  ((allStages.filter (fun s => decide (team ∈ stageSelection p s))).map
      bonusTable).sum

/-- One row of the merged results table (app.py lines 654-672): base
points, merged bonus, and the simulated total. -/
structure ResultRow where
  team : String
  basePoints : Int
  bonusPoints : Int
  simulatedTotal : Int
deriving DecidableEq

/-- The results merge (app.py lines 661-672): left-merge the bonus
column onto the base-score rows by team name, `fillna(0)` for teams with
no bonus row, then add the Simulated Total Points column. -/
def mergeBonuses (rows : List TeamRow) (simNames : List String)
    (bonus : String → Int) : List ResultRow :=
  rows.map (fun r =>
    let b := if r.team ∈ simNames then bonus r.team else 0
    { team := r.team, basePoints := r.basePoints, bonusPoints := b,
      simulatedTotal := r.basePoints + b })

/-- Descending order on an integer key: the sort relation of
`sort_values(key, ascending=False)`. -/
def keyDesc {α : Type} (key : α → Int) (a b : α) : Prop := key b ≤ key a

instance {α : Type} (key : α → Int) : DecidableRel (keyDesc key) :=
  fun a b => inferInstanceAs (Decidable (key b ≤ key a))

instance {α : Type} (key : α → Int) : IsTotal α (keyDesc key) :=
  ⟨fun a b => le_total (key b) (key a)⟩

instance {α : Type} (key : α → Int) : IsTrans α (keyDesc key) :=
  ⟨fun _ _ _ h1 h2 => le_trans h2 h1⟩

/-- One concrete realization of `sort_values(key, ascending=False)`:
a permutation of the input sorted by the key descending.  (The pandas
default `kind="quicksort"` guarantees exactly sortedness of the output,
not any particular tie order; see `IsSortOutputBy`.) -/
def sortDescBy {α : Type} (key : α → Int) (l : List α) : List α :=
  List.insertionSort (keyDesc key) l

/-- What `sort_values(key, ascending=False)` guarantees about its
output: it is a permutation of the input that is sorted by the key
descending.  The default sort kind (`quicksort`, a numpy introsort) is
not stable, so nothing more than this is guaranteed about the order of
rows with equal keys. -/
def IsSortOutputBy {α : Type} (key : α → Int) (input output : List α) : Prop :=
  input.Perm output ∧ output.Sorted (keyDesc key)

/-- The directional arrow of the results table (app.py lines 696-702). -/
def rank_arrow (x : Int) : String :=
  if x > 0 then ("⬆️") else if x < 0 then ("⬇️") else ("➖")

/-- One rendered row of the Simulated Franchise Ranking Changes table. -/
structure FinalRow where
  team : String
  basePoints : Int
  bonusPoints : Int
  simulatedTotal : Int
  origRank : Nat
  newRank : Nat
  rankChange : Int
  movement : String
deriving DecidableEq

/-- The rank-assignment part of the results section (app.py lines
674-704): sort by base points descending and record the 1-based
position as Original Rank, re-sort by simulated total descending and
record the 1-based position as New Rank, then compute Rank Change and
the movement arrow per row. -/
def rankedResults (rs : List ResultRow) : List FinalRow :=
  let original := sortDescBy (fun r => r.basePoints) rs
  let withOrig := original.enum.map (fun q => (q.2, q.1 + 1))
  let simulatedOrder := sortDescBy (fun q => q.1.simulatedTotal) withOrig
  simulatedOrder.enum.map (fun q =>
    { team := q.2.1.team, basePoints := q.2.1.basePoints,
      bonusPoints := q.2.1.bonusPoints,
      simulatedTotal := q.2.1.simulatedTotal,
      origRank := q.2.2, newRank := q.1 + 1,
      rankChange := (q.2.2 : Int) - ((q.1 + 1 : Nat) : Int),
      movement := rank_arrow ((q.2.2 : Int) - ((q.1 + 1 : Nat) : Int)) })

/-- The whole simulator tab: run the gated bracket machine on the
session state; when every stage validates, render the results table
built from the latest-year base rows, the merged bonuses and the two
rank sorts.  An `Except.error` value is a run in which `st.stop()` fired
and nothing after it (in particular the results section) executed. -/
def simulationResults (rows : List TeamRow) (st : SessionState) :
    Except StopPoint (List FinalRow) :=
  (runSim (dedupByTeam rows) st).map (fun p =>
    rankedResults
      (mergeBonuses rows ((dedupByTeam rows).map (fun t => t.team))
        (bonusPoints p)))

/-- A small concrete league used to evaluate the pipeline: one AFC and
one NFC division of four teams each, with pairwise distinct base
points. -/
def demoLeague : List TeamRow :=
  [⟨("A1"), ("AFC X"), 100⟩, ⟨("A2"), ("AFC X"), 90⟩,
   ⟨("A3"), ("AFC X"), 80⟩, ⟨("A4"), ("AFC X"), 70⟩,
   ⟨("N1"), ("NFC X"), 95⟩, ⟨("N2"), ("NFC X"), 85⟩,
   ⟨("N3"), ("NFC X"), 75⟩, ⟨("N4"), ("NFC X"), 65⟩]

/-- A session state in which every stage of the bracket is completely
selected: A1 and N1 win their divisions, the remaining six teams are
wild cards, all eight playoff teams win the wild-card round, A1, A2, N1
and N2 the divisional round, A1 and N1 the championships; the Super Bowl
radio has no stored value, so it defaults to the first champion. -/
def demoFullState : SessionState :=
  { entries :=
      [(("division_AFC X"), SVal.s ("A1")), (("division_NFC X"), SVal.s ("N1")),
       (("AFC_wc_A2"), SVal.b true), (("AFC_wc_A3"), SVal.b true),
       (("AFC_wc_A4"), SVal.b true),
       (("NFC_wc_N2"), SVal.b true), (("NFC_wc_N3"), SVal.b true),
       (("NFC_wc_N4"), SVal.b true),
       (("AFC_wc_win_A1"), SVal.b true), (("AFC_wc_win_A2"), SVal.b true),
       (("AFC_wc_win_A3"), SVal.b true), (("AFC_wc_win_A4"), SVal.b true),
       (("NFC_wc_win_N1"), SVal.b true), (("NFC_wc_win_N2"), SVal.b true),
       (("NFC_wc_win_N3"), SVal.b true), (("NFC_wc_win_N4"), SVal.b true),
       (("AFC_div_win_A1"), SVal.b true), (("AFC_div_win_A2"), SVal.b true),
       (("NFC_div_win_N1"), SVal.b true), (("NFC_div_win_N2"), SVal.b true),
       (("AFC_conf_champ_A1"), SVal.b true), (("NFC_conf_champ_N1"), SVal.b true)],
    sbStored := none }

/-- The picks the complete demo session produces (extracted from
`runSim`; the fallback branch is unreachable on this input). -/
def demoPicks : Picks :=
  match runSim (dedupByTeam demoLeague) demoFullState with
  | Except.ok p => p
  | Except.error _ =>
    { divisionWinners := [], wildcards := [], wcRoundWinners := [],
      divRoundWinners := [], confChampions := [], sbWinner := ("") }

/-- The rendered results of the complete demo session (extracted from
`simulationResults`; the fallback branch is unreachable on this
input). -/
def demoResults : List FinalRow :=
  match simulationResults demoLeague demoFullState with
  | Except.ok r => r
  | Except.error _ => []

/-- A placeholder row used only to select the head of `demoResults`. -/
def someFinalRow : FinalRow :=
  { team := (""), basePoints := 0, bonusPoints := 0, simulatedTotal := 0,
    origRank := 0, newRank := 0, rankChange := 0, movement := ("") }

/-- Scenario A of the spec: both division winners selected, no wild
cards selected. -/
def scenarioAState : SessionState :=
  { entries :=
      [(("division_AFC X"), SVal.s ("A1")), (("division_NFC X"), SVal.s ("N1"))],
    sbStored := none }

/-- The PickSet at the Scenario A stop: only the DivisionWinners stage
holds selections. -/
def scenarioAPicks : Picks :=
  { divisionWinners := [("A1"), ("N1")], wildcards := [], wcRoundWinners := [],
    divRoundWinners := [], confChampions := [], sbWinner := ("—") }

/-- Scenario B of the spec: team X with base points 100. -/
def teamX : TeamRow := ⟨("X"), ("AFC X"), 100⟩

/-- Scenario B picks: X is a division winner, wild-card-round winner,
divisional-round winner, conference champion and Super Bowl champion
(and not a wild card). -/
def scenarioBPicks : Picks :=
  { divisionWinners := [("X")], wildcards := [], wcRoundWinners := [("X")],
    divRoundWinners := [("X")], confChampions := [("X")], sbWinner := ("X") }

/-- Two result rows tied at base points 90 (for the tie-order analysis
of the rank sorts). -/
def tiedRowA : ResultRow :=
  { team := ("Y"), basePoints := 90, bonusPoints := 0, simulatedTotal := 90 }

/-- Second of the two tied result rows. -/
def tiedRowB : ResultRow :=
  { team := ("Z"), basePoints := 90, bonusPoints := 0, simulatedTotal := 90 }

/-- Two result rows with distinct base points (90 and 80). -/
def distinctRowHi : ResultRow :=
  { team := ("Y"), basePoints := 90, bonusPoints := 0, simulatedTotal := 90 }

/-- Second of the two distinct-key rows. -/
def distinctRowLo : ResultRow :=
  { team := ("Z"), basePoints := 80, bonusPoints := 0, simulatedTotal := 80 }

/-! ## Claim C1: what the Reset Simulation button actually clears -/

/-- C1.  The spec claims `reset()` clears every stage selection and
returns the machine to the empty PickSet.  The handler, however, scans
session keys for the prefixes `AFC_`, `NFC_` and `sb_` only: the
division-winner selectboxes (keys `division_{div}`) survive, so after a
reset the division winners of the demo session are still selected while
the wild-card stage has been cleared.  (The `sb_` prefix also matches no
real key, since the Super Bowl radio has no `key=` argument.) -/
theorem reset_keeps_division_selection :
    divisionWinners (dedupByTeam demoLeague) (resetSim demoFullState)
        = [("A1"), ("N1")]
    ∧ (derivedPickSet (dedupByTeam demoLeague) (resetSim demoFullState)).wildcards
        = [] := by decide

/-! ## Claim C9: reset is idempotent, but not a reset to the empty PickSet -/

/-- C9 counterexample.  After a single reset of the complete demo
session the derived PickSet is not the empty PickSet (the one derived
from a fresh session): the division winners survive the key-prefix
scan. -/
theorem reset_result_not_empty :
    derivedPickSet (dedupByTeam demoLeague) (resetSim demoFullState)
      ≠ derivedPickSet (dedupByTeam demoLeague) emptySession := by decide

/-- C9 amended.  `reset()` is idempotent as a state transformation:
deleting every key with one of the scanned prefixes twice yields the
same session state as deleting them once. -/
theorem reset_idempotent (st : SessionState) :
    resetSim (resetSim st) = resetSim st := by
  unfold resetSim
  simp [List.filter_filter]

/-! ## Claim C2: incomplete wild cards stop the script before the results -/

/-- C2 counterexample.  In Scenario A (every division has a winner, no
wild cards selected) the script stops at the AFC wild-card validation,
so no SimulationResult is computed or presented: the run is an error
value and is not `Except.ok` of any results table. -/
theorem scenarioA_no_results_rendered :
    simulationResults demoLeague scenarioAState
        = Except.error (StopPoint.wildCards ("AFC"))
    ∧ ¬ ∃ res, simulationResults demoLeague scenarioAState = Except.ok res := by
  refine ⟨rfl, ?_⟩
  rintro ⟨res, hres⟩
  exact Except.noConfusion
    (show Except.error (StopPoint.wildCards ("AFC")) = Except.ok res from hres)

/-- C2 amended.  With complete division winners but fewer than 3 wild
cards for a conference, progression past WildCards is blocked and the
script halts, so the results table is never rendered; the bonus ledger
determined by the division-winner picks alone is nevertheless well
defined: +2 for each selected division winner and 0 for every other
team. -/
theorem scenarioA_blocked_division_bonus_only :
    simulationResults demoLeague scenarioAState
        = Except.error (StopPoint.wildCards ("AFC"))
    ∧ (demoLeague.map (fun t => bonusPoints scenarioAPicks t.team))
        = [2, 0, 0, 0, 2, 0, 0, 0] :=
  ⟨rfl, by decide⟩

/-! ## Claim C3: the bonus ledger is the per-stage bonus sum -/

/-- Unfolding step for a filtered-and-summed bonus list: the head stage
contributes its bonus exactly when the predicate holds of it. -/
lemma ledger_cons (pred : BracketStage → Bool) (f : BracketStage → Int)
    (a : BracketStage) (l : List BracketStage) :
    ((List.filter pred (a :: l)).map f).sum
      = (if pred a = true then f a else 0) + ((List.filter pred l).map f).sum := by
  by_cases h : pred a = true <;> simp [List.filter_cons, h]

/-- C3.  The source-translated ledger `bonusPoints` agrees with the
ledger as the spec words it (`computeBonusLedger`: sum of the fixed
bonuses of exactly the stages in which the team appears, 0 for teams in
no stage), for every PickSet and every team; and in Scenario B team X
(base 100, selected at every stage except WildCards) has bonus
2+2+4+11+29 = 48 and simulated total 148. -/
theorem bonus_ledger_stage_sum :
    (∀ (p : Picks) (team : String),
        bonusPoints p team = computeBonusLedger p team)
    ∧ bonusPoints scenarioBPicks ("X") = 48
    ∧ (mergeBonuses [teamX] [("X")] (bonusPoints scenarioBPicks)).map
        (fun r => r.simulatedTotal) = [148] := by
  refine ⟨?_, by decide, by decide⟩
  intro p team
  unfold computeBonusLedger allStages
  rw [ledger_cons, ledger_cons, ledger_cons, ledger_cons, ledger_cons,
    ledger_cons]
  simp only [List.filter_nil, List.map_nil, List.sum_nil, stageSelection,
    bonusTable, decide_eq_true_eq, List.mem_singleton]
  have hflip : (if team = p.sbWinner then (29 : Int) else 0)
      = (if p.sbWinner = team then (29 : Int) else 0) := by
    by_cases hx : team = p.sbWinner
    · simp [hx]
    · have hx2 : ¬ p.sbWinner = team := fun hh => hx hh.symm
      simp [hx, hx2]
  rw [hflip]
  unfold bonusPoints
  by_cases h1 : team ∈ p.divisionWinners <;>
    by_cases h2 : team ∈ p.wildcards <;>
      by_cases h3 : team ∈ p.wcRoundWinners <;>
        by_cases h4 : team ∈ p.divRoundWinners <;>
          by_cases h5 : team ∈ p.confChampions <;>
            by_cases h6 : p.sbWinner = team <;>
              simp [h1, h2, h3, h4, h5, h6]

/-! ## Claim C4: what the rank sorts guarantee about order and ties -/

/-- Two sorted-by-key permutations of each other agree when the key
values are pairwise distinct. -/
lemma sorted_perm_key_nodup_eq {α : Type} (key : α → Int) :
    ∀ (l1 l2 : List α), l1.Perm l2 → l1.Sorted (keyDesc key) →
      l2.Sorted (keyDesc key) → (l1.map key).Nodup → l1 = l2 := by
  intro l1
  induction l1 with
  | nil =>
    intro l2 hp _ _ _
    exact (List.Perm.eq_nil hp.symm).symm
  | cons a t1 ih =>
    intro l2 hp hs1 hs2 hnd
    cases l2 with
    | nil => exact absurd (List.Perm.eq_nil hp) (by simp)
    | cons b t2 =>
      have hab : a ∈ b :: t2 := hp.mem_iff.mp (List.mem_cons_self a t1)
      have hba : b ∈ a :: t1 := hp.symm.mem_iff.mp (List.mem_cons_self b t2)
      have hs1c := List.sorted_cons.mp hs1
      have hs2c := List.sorted_cons.mp hs2
      have hndc : (∀ x ∈ t1, ¬ key x = key a) ∧ (List.map key t1).Nodup := by
        simpa using hnd
      by_cases hab2 : a = b
      · subst hab2
        have ht : t1 = t2 := ih t2 hp.cons_inv hs1c.2 hs2c.2 hndc.2
        rw [ht]
      · have hbt1 : b ∈ t1 := by
          rcases List.mem_cons.mp hba with he | hm
          · exact absurd he.symm hab2
          · exact hm
        have hat2 : a ∈ t2 := by
          rcases List.mem_cons.mp hab with he | hm
          · exact absurd he hab2
          · exact hm
        have h1 : key b ≤ key a := hs1c.1 b hbt1
        have h2 : key a ≤ key b := hs2c.1 a hat2
        have heq : key b = key a := le_antisymm h1 h2
        exact absurd heq (hndc.1 b hbt1)

/-- C4 counterexample.  On two rows tied at base points 90,
`sort_values` may output them in swapped order (the swapped list is a
permutation sorted by the key, which is all the default quicksort
guarantees), and that valid output differs from the input-order (stable)
realization — so ranks of tied teams are not determined by the original
input order as the claim states. -/
theorem tie_rank_not_input_order :
    ¬ (∀ out, IsSortOutputBy (fun r => r.basePoints) [tiedRowA, tiedRowB] out
        → out = sortDescBy (fun r => r.basePoints) [tiedRowA, tiedRowB]) := by
  intro h
  have hperm : ([tiedRowA, tiedRowB]).Perm [tiedRowB, tiedRowA] :=
    List.Perm.swap tiedRowB tiedRowA []
  have hsorted : ([tiedRowB, tiedRowA]).Sorted
      (keyDesc (fun r => r.basePoints)) := by
    simp [List.sorted_cons, keyDesc, tiedRowA, tiedRowB]
  have h2 := h [tiedRowB, tiedRowA] ⟨hperm, hsorted⟩
  have h3 : sortDescBy (fun r => r.basePoints) [tiedRowA, tiedRowB]
      = [tiedRowA, tiedRowB] := by decide
  rw [h3] at h2
  exact absurd h2 (by decide)

/-- C4 amended.  For every list of result rows and every integer key
(base points for the original rank, simulated totals for the simulated
rank): the realization used by the pipeline is a valid
`sort_values` output — a permutation of the input sorted descending by
the key — and, whenever the key values are pairwise distinct, every
valid `sort_values` output coincides with it, so all ranks are uniquely
determined; the order of rows with equal keys is otherwise
unspecified. -/
theorem rank_sort_semantics :
    ∀ (rs : List ResultRow) (key : ResultRow → Int),
      IsSortOutputBy key rs (sortDescBy key rs)
      ∧ ((rs.map key).Nodup →
          ∀ out, IsSortOutputBy key rs out → out = sortDescBy key rs) := by
  intro rs key
  constructor
  · exact ⟨(List.perm_insertionSort _ _).symm, List.sorted_insertionSort _ _⟩
  · intro hnd out hout
    have hperm : out.Perm (sortDescBy key rs) :=
      hout.1.symm.trans (List.perm_insertionSort _ _).symm
    have hnd2 : (out.map key).Nodup :=
      ((hout.1.map key).nodup_iff).mp hnd
    exact sorted_perm_key_nodup_eq key out (sortDescBy key rs) hperm hout.2
      (List.sorted_insertionSort _ _) hnd2

/-- C4 witness: on two rows with distinct base points 80 and 90 the
pipeline realization is a valid sort output, and the uniqueness part
pins the descending output [90, 80] as the only valid one. -/
theorem rank_sort_semantics_witness :
    IsSortOutputBy (fun r => r.basePoints) [distinctRowLo, distinctRowHi]
        (sortDescBy (fun r => r.basePoints) [distinctRowLo, distinctRowHi])
    ∧ [distinctRowHi, distinctRowLo]
        = sortDescBy (fun r => r.basePoints) [distinctRowLo, distinctRowHi] := by
  refine ⟨(rank_sort_semantics [distinctRowLo, distinctRowHi]
      (fun r => r.basePoints)).1, ?_⟩
  refine (rank_sort_semantics [distinctRowLo, distinctRowHi]
      (fun r => r.basePoints)).2 (by decide) _ ⟨?_, ?_⟩
  · exact List.Perm.swap distinctRowHi distinctRowLo []
  · simp [List.sorted_cons, keyDesc, distinctRowHi, distinctRowLo]

/-! ## Claim C5: simulated total minus base points is the bonus -/

/-- Every team of the input list appears (by name) in the deduplicated
rows accumulated by `dedupGo`, unless its name was already seen. -/
lemma mem_dedupGo_names :
    ∀ (l : List TeamRow) (seen : List String) (s : TeamRow), s ∈ l →
      s.team ∈ seen ∨ s.team ∈ (dedupGo seen l).map (fun t => t.team) := by
  intro l
  induction l with
  | nil => intro seen s hs; cases hs
  | cons r rest ih =>
    intro seen s hs
    by_cases hr : r.team ∈ seen
    · rw [dedupGo, if_pos hr]
      rcases List.mem_cons.mp hs with he | hm
      · exact Or.inl (he ▸ hr)
      · exact ih seen s hm
    · rw [dedupGo, if_neg hr]
      rcases List.mem_cons.mp hs with he | hm
      · right; simp [he]
      · rcases ih (r.team :: seen) s hm with hl | hr2
        · rcases List.mem_cons.mp hl with he2 | hseen
          · right; simp [he2]
          · exact Or.inl hseen
        · right; simp only [List.map_cons, List.mem_cons]; exact Or.inr hr2

/-- The name of every input row appears among the names of
`dedupByTeam` (so the bonus left-merge always finds a row and
`fillna(0)` never fires for a team of the base table). -/
lemma team_mem_dedup_names (rows : List TeamRow) (s : TeamRow)
    (hs : s ∈ rows) :
    s.team ∈ (dedupByTeam rows).map (fun t => t.team) := by
  rcases mem_dedupGo_names rows [] s hs with h | h
  · cases h
  · exact h

/-- C5.  For every row of the merged results table (any base rows, any
PickSet), the Simulated Total Points minus the Base Points equals the
bonus-ledger value of the team; the `fillna(0)` fallback of the merge is
the missing-bonus-means-0 convention of the claim, and it indeed reads
the ledger for every base row because the simulation table covers all
team names. -/
theorem simulated_total_decomposition (rows : List TeamRow) (p : Picks)
    (r : ResultRow)
    (h : r ∈ mergeBonuses rows ((dedupByTeam rows).map (fun t => t.team))
        (bonusPoints p)) :
    r.simulatedTotal - r.basePoints = bonusPoints p r.team := by
  unfold mergeBonuses at h
  obtain ⟨s, hs, hr⟩ := List.mem_map.mp h
  subst hr
  have hmem : s.team ∈ (dedupByTeam rows).map (fun t => t.team) :=
    team_mem_dedup_names rows s hs
  simp [hmem, add_sub_cancel_left]

/-- The first row of the Scenario B merge over the demo league, used to
instantiate the C5 decomposition. -/
def demoMergedRow : ResultRow :=
  (mergeBonuses demoLeague ((dedupByTeam demoLeague).map (fun t => t.team))
      (bonusPoints scenarioBPicks)).headD
    { team := (""), basePoints := 0, bonusPoints := 0, simulatedTotal := 0 }

/-- C5 witness: the decomposition at a concrete row of a concrete
merge. -/
theorem simulated_total_decomposition_witness :
    demoMergedRow.simulatedTotal - demoMergedRow.basePoints
      = bonusPoints scenarioBPicks demoMergedRow.team :=
  simulated_total_decomposition demoLeague scenarioBPicks demoMergedRow
    (by decide)

/-! ## Claim C6: rank change and the movement arrow -/

/-- Characterization of the three movement arrows. -/
lemma rank_arrow_spec (x : Int) :
    ((rank_arrow x = ("⬆️")) ↔ x > 0)
    ∧ ((rank_arrow x = ("⬇️")) ↔ x < 0)
    ∧ ((rank_arrow x = ("➖")) ↔ x = 0) := by
  have hud : (("⬆️") : String) ≠ ("⬇️") := by decide
  have hun : (("⬆️") : String) ≠ ("➖") := by decide
  have hdn : (("⬇️") : String) ≠ ("➖") := by decide
  unfold rank_arrow
  split_ifs with h1 h2 <;> refine ⟨?_, ?_, ?_⟩ <;>
    simp_all <;> omega

/-- C6.  In every rendered results table, each row satisfies: Rank
Change equals Original Rank minus New Rank, and the movement arrow is
the up arrow exactly when the rank change is positive, the down arrow
exactly when it is negative, and the dash exactly when it is zero. -/
theorem rank_change_movement (rows : List TeamRow) (st : SessionState)
    (res : List FinalRow) (r : FinalRow)
    (hres : simulationResults rows st = Except.ok res) (hr : r ∈ res) :
    r.rankChange = (r.origRank : Int) - (r.newRank : Int)
    ∧ (r.movement = ("⬆️") ↔ r.rankChange > 0)
    ∧ (r.movement = ("⬇️") ↔ r.rankChange < 0)
    ∧ (r.movement = ("➖") ↔ r.rankChange = 0) := by
  unfold simulationResults at hres
  cases hrun : runSim (dedupByTeam rows) st with
  | error e =>
    rw [hrun] at hres
    exact absurd hres (by simp [Except.map])
  | ok p =>
    rw [hrun] at hres
    simp only [Except.map] at hres
    injection hres with hres2
    subst hres2
    unfold rankedResults at hr
    obtain ⟨q, hq, hr2⟩ := List.mem_map.mp hr
    subst hr2
    refine ⟨rfl, ?_, ?_, ?_⟩
    · exact (rank_arrow_spec _).1
    · exact (rank_arrow_spec _).2.1
    · exact (rank_arrow_spec _).2.2

/-- C6 witness: the rank-change and movement facts at the top row of the
rendered demo results. -/
theorem rank_change_movement_witness :
    (demoResults.headD someFinalRow).rankChange
        = ((demoResults.headD someFinalRow).origRank : Int)
          - ((demoResults.headD someFinalRow).newRank : Int)
    ∧ ((demoResults.headD someFinalRow).movement = ("⬆️")
        ↔ (demoResults.headD someFinalRow).rankChange > 0)
    ∧ ((demoResults.headD someFinalRow).movement = ("⬇️")
        ↔ (demoResults.headD someFinalRow).rankChange < 0)
    ∧ ((demoResults.headD someFinalRow).movement = ("➖")
        ↔ (demoResults.headD someFinalRow).rankChange = 0) :=
  rank_change_movement demoLeague demoFullState demoResults
    (demoResults.headD someFinalRow) rfl (by decide)

/-! ## Claim C7: wild cards and division winners are disjoint -/

/-- Membership in the wild-card candidate pool: the team is a row of the
team table in the right conference whose name is not a division
winner. -/
lemma mem_wildcardPool {teams : List TeamRow} {dw : List String}
    {c t : String} (h : t ∈ wildcardPool teams dw c) :
    ∃ r, r ∈ teams ∧ r.team = t ∧ conference r = c ∧ t ∉ dw := by
  unfold wildcardPool sortedStrings at h
  have h2 := (List.perm_insertionSort strLe _).mem_iff.mp h
  obtain ⟨r, hr, hrt⟩ := List.mem_map.mp h2
  have hr1 := List.mem_filter.mp hr
  have hr2 := List.mem_filter.mp hr1.1
  have hnotin : ¬ r.team ∈ dw := by simpa using hr2.2
  exact ⟨r, hr2.1, hrt, of_decide_eq_true hr1.2, hrt ▸ hnotin⟩

/-- C7.  For every simulation state (any widget contents at all) no team
in a wild-card selection is also a selected division winner: the
wild-card candidate pool is built from the team universe minus the
division winners, so the derived selections are disjoint by
construction. -/
theorem wildcards_disjoint_division_winners (teams : List TeamRow)
    (st : SessionState) (c t : String)
    (h : t ∈ wildcardsFor teams st (divisionWinners teams st) c) :
    t ∉ divisionWinners teams st := by
  unfold wildcardsFor at h
  have hp := (List.mem_filter.mp h).1
  obtain ⟨r, _, _, _, hnd⟩ := mem_wildcardPool hp
  exact hnd

/-- C7 witness: team A2 is a selected AFC wild card of the complete demo
session, hence not a division winner there. -/
theorem wildcards_disjoint_division_winners_witness :
    ("A2") ∉ divisionWinners (dedupByTeam demoLeague) demoFullState :=
  wildcards_disjoint_division_winners (dedupByTeam demoLeague) demoFullState
    ("AFC") ("A2") (by decide)

/-! ## Claim C10: the Super Bowl bonus is carried by exactly one team -/

/-- Membership in a later-round candidate pool: the team is a row of the
team table in the right conference whose name is in the previous
selection. -/
lemma mem_roundPool {teams : List TeamRow} {sel : List String}
    {c t : String} (h : t ∈ roundPool teams sel c) :
    ∃ r, r ∈ teams ∧ r.team = t ∧ conference r = c ∧ t ∈ sel := by
  unfold roundPool sortedStrings at h
  have h2 := (List.perm_insertionSort strLe _).mem_iff.mp h
  obtain ⟨r, hr, hrt⟩ := List.mem_map.mp h2
  have hr1 := List.mem_filter.mp hr
  have hr2 := List.mem_filter.mp hr1.1
  exact ⟨r, hr2.1, hrt, of_decide_eq_true hr1.2,
    hrt ▸ of_decide_eq_true hr2.2⟩

/-- Every row kept by `dedupGo` is a row of the input list. -/
lemma dedupGo_subset :
    ∀ (l : List TeamRow) (seen : List String) (r : TeamRow),
      r ∈ dedupGo seen l → r ∈ l := by
  intro l
  induction l with
  | nil => intro seen r h; cases h
  | cons a rest ih =>
    intro seen r h
    rw [dedupGo] at h
    by_cases ha : a.team ∈ seen
    · rw [if_pos ha] at h
      exact List.mem_cons_of_mem a (ih seen r h)
    · rw [if_neg ha] at h
      rcases List.mem_cons.mp h with he | hm
      · exact he ▸ List.mem_cons_self a rest
      · exact List.mem_cons_of_mem a (ih _ r hm)

/-- The radio always returns one of its options when there are any. -/
lemma radioSelect_mem (options : List String) (stored : Option String)
    (h : options ≠ []) : radioSelect options stored ∈ options := by
  unfold radioSelect
  cases options with
  | nil => exact absurd rfl h
  | cons o rest =>
    cases stored with
    | none => simp [List.headD]
    | some v =>
      by_cases hv : v ∈ o :: rest
      · simp [hv]
      · simp [hv, List.headD]

/-- Inversion of the Super Bowl stage: a successful run validated the
champions pair and picked the radio value among it. -/
lemma superBowlStep_ok {st : SessionState} {dw wc ww dv cc : List String}
    {p : Picks} (h : superBowlStep st dw wc ww dv cc = Except.ok p) :
    cc.length = 2 ∧ p.confChampions = cc
      ∧ p.sbWinner = radioSelect cc st.sbStored := by
  unfold superBowlStep at h
  split at h
  · injection h with h2
    subst h2
    exact ⟨by assumption, rfl, rfl⟩
  · exact Except.noConfusion h

/-- Inversion of the conference-champion stage: a successful run reached
the Super Bowl stage with the two championship selections appended. -/
lemma confChampStep_ok {teams : List TeamRow} {st : SessionState}
    {dw wc ww dv : List String} {p : Picks}
    (h : confChampStep teams st dw wc ww dv = Except.ok p) :
    superBowlStep st dw wc ww dv
      (checkboxRound teams st dv ("AFC") ("_conf_champ_")
        ++ checkboxRound teams st dv ("NFC") ("_conf_champ_"))
      = Except.ok p := by
  unfold confChampStep at h
  split at h
  · split at h
    · exact h
    · exact Except.noConfusion h
  · exact Except.noConfusion h

/-- Inversion of the divisional round: a successful run reached the
conference-champion stage. -/
lemma divRoundStep_ok {teams : List TeamRow} {st : SessionState}
    {dw wc ww : List String} {p : Picks}
    (h : divRoundStep teams st dw wc ww = Except.ok p) :
    confChampStep teams st dw wc ww
      (checkboxRound teams st ww ("AFC") ("_div_win_")
        ++ checkboxRound teams st ww ("NFC") ("_div_win_"))
      = Except.ok p := by
  unfold divRoundStep at h
  split at h
  · split at h
    · exact h
    · exact Except.noConfusion h
  · exact Except.noConfusion h

/-- Inversion of the wild-card round: a successful run reached the
divisional round. -/
lemma wcRoundStep_ok {teams : List TeamRow} {st : SessionState}
    {dw wc : List String} {p : Picks}
    (h : wcRoundStep teams st dw wc = Except.ok p) :
    divRoundStep teams st dw wc
      (checkboxRound teams st (dw ++ wc) ("AFC") ("_wc_win_")
        ++ checkboxRound teams st (dw ++ wc) ("NFC") ("_wc_win_"))
      = Except.ok p := by
  unfold wcRoundStep at h
  split at h
  · split at h
    · exact h
    · exact Except.noConfusion h
  · exact Except.noConfusion h

/-- Inversion of the wild-card stage. -/
lemma wildcardStep_ok {teams : List TeamRow} {st : SessionState}
    {dw : List String} {p : Picks}
    (h : wildcardStep teams st dw = Except.ok p) :
    wcRoundStep teams st dw
      (wildcardsFor teams st dw ("AFC") ++ wildcardsFor teams st dw ("NFC"))
      = Except.ok p := by
  unfold wildcardStep at h
  split at h
  · split at h
    · exact h
    · exact Except.noConfusion h
  · exact Except.noConfusion h

/-- Inversion of the whole gated run: a success came through every
stage, so the champions list is the appended pair of conference
selections out of some divisional-round list, has length 2, and the
Super Bowl winner is the radio value over it. -/
lemma runSim_ok_champions {teams : List TeamRow} {st : SessionState}
    {p : Picks} (h : runSim teams st = Except.ok p) :
    ∃ dv, p.confChampions
        = checkboxRound teams st dv ("AFC") ("_conf_champ_")
          ++ checkboxRound teams st dv ("NFC") ("_conf_champ_")
      ∧ p.confChampions.length = 2
      ∧ p.sbWinner = radioSelect p.confChampions st.sbStored := by
  unfold runSim at h
  split at h
  · exact Except.noConfusion h
  · have h2 := superBowlStep_ok (confChampStep_ok (divRoundStep_ok
      (wcRoundStep_ok (wildcardStep_ok h))))
    refine ⟨_, h2.2.1, ?_, ?_⟩
    · rw [h2.2.1]; exact h2.1
    · rw [h2.2.1]; exact h2.2.2

/-- C10.  Whenever the results table is rendered (the gated run
succeeds), the champions list has exactly 2 entries, the Super Bowl
winner is one of them (the radio defaults to the first champion, so
there is no empty/sentinel Super Bowl state), and — the base table
having one row per team — exactly one row of the base table carries the
name that receives the +29 bonus. -/
theorem superbowl_bonus_unique (rows : List TeamRow) (st : SessionState)
    (p : Picks) (hrun : runSim (dedupByTeam rows) st = Except.ok p)
    (hnd : (rows.map (fun r => r.team)).Nodup) :
    p.confChampions.length = 2
    ∧ p.sbWinner ∈ p.confChampions
    ∧ (rows.map (fun r => r.team)).count p.sbWinner = 1 := by
  obtain ⟨dv, hcc, hlen2, hsb⟩ := runSim_ok_champions hrun
  have hne : p.confChampions ≠ [] := by
    intro hh
    rw [hh] at hlen2
    simp at hlen2
  have hmem : p.sbWinner ∈ p.confChampions := by
    rw [hsb]
    exact radioSelect_mem _ _ hne
  refine ⟨hlen2, hmem, ?_⟩
  have hmem2 := hmem
  rw [hcc] at hmem2
  rcases List.mem_append.mp hmem2 with hm | hm <;>
  · have hpool := (List.mem_filter.mp hm).1
    obtain ⟨r, hrT, hrt, _, _⟩ := mem_roundPool hpool
    have hrrows : r ∈ rows := dedupGo_subset rows [] r hrT
    have hsbmem : p.sbWinner ∈ rows.map (fun t => t.team) :=
      hrt ▸ List.mem_map_of_mem (fun t => t.team) hrrows
    exact List.count_eq_one_of_mem hnd hsbmem

/-- C10 witness: the facts at the complete demo run. -/
theorem superbowl_bonus_unique_witness :
    demoPicks.confChampions.length = 2
    ∧ demoPicks.sbWinner ∈ demoPicks.confChampions
    ∧ (demoLeague.map (fun r => r.team)).count demoPicks.sbWinner = 1 :=
  superbowl_bonus_unique demoLeague demoFullState demoPicks rfl (by decide)

/-! ## Claim C8: cross-conference wild-card attempts have no effect

An attempt to select a team as an AFC wild card is modelled as storing
`True` under the checkbox key `AFC_wc_{team}`.  When the team belongs to
the NFC, no AFC wild-card checkbox with that key is ever rendered (the
pool is conference-filtered), so no stage of the script reads the key
and the derived PickSet is unchanged.  The only session key of another
widget that could textually collide with `AFC_wc_{team}` is a wild-card
round key `AFC_wc_win_{x}` for a team named `win_{x}`; the hypothesis
that the team name does not start with `win_` rules that out (real team
names never do; the same collision would occur in the Python script). -/

/-- Appending distributes over the character data of strings. -/
lemma string_data_append (s t : String) : (s ++ t).data = s.data ++ t.data := rfl

/-- Strings with equal character data are equal. -/
lemma string_eq_of_data {s t : String} (h : s.data = t.data) : s = t := by
  cases s
  cases t
  exact congrArg String.mk h

/-- Storing a keyed value leaves the auto-keyed radio slot alone. -/
lemma setBoolKey_sbStored (st : SessionState) (k : String) (v : Bool) :
    (setBoolKey st k v).sbStored = st.sbStored := rfl

/-- Reading any other key is unaffected by storing a boolean value. -/
lemma getBool_setBoolKey_ne (st : SessionState) (k : String) (v : Bool)
    (k2 : String) (h : ¬ k2 = k) :
    getBool (setBoolKey st k v) k2 = getBool st k2 := by
  have hb : (k == k2) = false := by
    by_cases hx : k = k2
    · exact absurd hx (fun hh => h hh.symm)
    · simp [hx]
  unfold getBool lookupKey setBoolKey
  simp [List.find?_cons, hb]

/-- Reading any other key is unaffected by storing a boolean value. -/
lemma getStr_setBoolKey_ne (st : SessionState) (k : String) (v : Bool)
    (k2 : String) (h : ¬ k2 = k) :
    getStr (setBoolKey st k v) k2 = getStr st k2 := by
  have hb : (k == k2) = false := by
    by_cases hx : k = k2
    · exact absurd hx (fun hh => h hh.symm)
    · simp [hx]
  unfold getStr lookupKey setBoolKey
  simp [List.find?_cons, hb]

/-- A division-selectbox key never coincides with an AFC wild-card
checkbox key (they differ at the first character). -/
lemma divisionKey_ne (a b : String) :
    ¬ (("division_") ++ a = ("AFC_wc_") ++ b) := by
  intro h
  have h2 : some ('d') = some ('A') :=
    congrArg (fun l => l.head?) (congrArg String.data h)
  exact absurd h2 (by decide)

/-- An NFC widget key never coincides with an AFC wild-card checkbox
key (they differ at the first character). -/
lemma nfcKey_ne (mid a b : String) :
    ¬ ((("NFC") ++ mid) ++ a = ("AFC_wc_") ++ b) := by
  intro h
  have h2 : some ('N') = some ('A') :=
    congrArg (fun l => l.head?) (congrArg String.data h)
  exact absurd h2 (by decide)

/-- An AFC divisional-round key never coincides with an AFC wild-card
checkbox key (they differ at the fifth character). -/
lemma divWinKey_ne (a b : String) :
    ¬ ((("AFC") ++ ("_div_win_")) ++ a = ("AFC_wc_") ++ b) := by
  intro h
  have h2 : some ('d') = some ('w') :=
    congrArg (fun l => List.get? l 4) (congrArg String.data h)
  exact absurd h2 (by decide)

/-- An AFC conference-championship key never coincides with an AFC
wild-card checkbox key (they differ at the fifth character). -/
lemma confChampKey_ne (a b : String) :
    ¬ ((("AFC") ++ ("_conf_champ_")) ++ a = ("AFC_wc_") ++ b) := by
  intro h
  have h2 : some ('c') = some ('w') :=
    congrArg (fun l => List.get? l 4) (congrArg String.data h)
  exact absurd h2 (by decide)

/-- Two AFC wild-card checkbox keys coincide only for the same team. -/
lemma wcKey_inj {t tname : String}
    (h : (("AFC") ++ ("_wc_")) ++ t = ("AFC_wc_") ++ tname) : t = tname := by
  have h2 : (('A') :: ('F') :: ('C') :: ('_') :: ('w') :: ('c') :: ('_')
        :: t.data)
      = (('A') :: ('F') :: ('C') :: ('_') :: ('w') :: ('c') :: ('_')
        :: tname.data) :=
    congrArg String.data h
  have h3 : t.data = tname.data := by simpa using h2
  exact string_eq_of_data h3

/-- An AFC wild-card-round key `AFC_wc_win_{x}` coincides with the
checkbox key `AFC_wc_{tname}` only when `tname` is `win_{x}`, which the
prefix hypothesis excludes. -/
lemma wcWinKey_reject {t tname : String}
    (hpre : isPre (("win_")).data tname.data = false)
    (h : (("AFC") ++ ("_wc_win_")) ++ t = ("AFC_wc_") ++ tname) : False := by
  have h2 : (('A') :: ('F') :: ('C') :: ('_') :: ('w') :: ('c') :: ('_')
        :: ('w') :: ('i') :: ('n') :: ('_') :: t.data)
      = (('A') :: ('F') :: ('C') :: ('_') :: ('w') :: ('c') :: ('_')
        :: tname.data) :=
    congrArg String.data h
  have h3 : (('w') :: ('i') :: ('n') :: ('_') :: t.data) = tname.data := by
    simpa using h2
  rw [← h3] at hpre
  have htrue : isPre (("win_")).data
      (('w') :: ('i') :: ('n') :: ('_') :: t.data) = true := rfl
  rw [htrue] at hpre
  exact Bool.noConfusion hpre

/-- Storing the attempted AFC wild-card pick does not change the derived
division winners. -/
lemma divisionWinners_set_wc (teams : List TeamRow) (st : SessionState)
    (tname : String) :
    divisionWinners teams (setBoolKey st (("AFC_wc_") ++ tname) true)
      = divisionWinners teams st := by
  unfold divisionWinners
  apply List.filterMap_congr
  intro div _
  unfold divisionWinnerFor
  rw [getStr_setBoolKey_ne st (("AFC_wc_") ++ tname) true
    (("division_") ++ div) (divisionKey_ne div tname)]

/-- Storing the attempted AFC wild-card pick of an NFC team does not
change the derived AFC wild cards: the stored key is read only for
teams of the AFC pool, and the team is not in it. -/
lemma wildcardsFor_set_wc_afc (teams : List TeamRow) (st : SessionState)
    (tname : String)
    (hconf : ∀ r, r ∈ teams → r.team = tname → conference r = ("NFC"))
    (dw : List String) :
    wildcardsFor teams (setBoolKey st (("AFC_wc_") ++ tname) true) dw ("AFC")
      = wildcardsFor teams st dw ("AFC") := by
  unfold wildcardsFor
  apply List.filter_congr
  intro t ht
  apply getBool_setBoolKey_ne
  intro hk
  have ht2 : t = tname := wcKey_inj hk
  obtain ⟨r, hr, hrt, hrc, _⟩ := mem_wildcardPool ht
  have hn := hconf r hr (by rw [hrt, ht2])
  exact absurd (hn.symm.trans hrc) (by decide)

/-- Storing the attempted AFC wild-card pick does not change the derived
NFC wild cards (all their keys differ). -/
lemma wildcardsFor_set_wc_nfc (teams : List TeamRow) (st : SessionState)
    (dw : List String) (tname : String) :
    wildcardsFor teams (setBoolKey st (("AFC_wc_") ++ tname) true) dw ("NFC")
      = wildcardsFor teams st dw ("NFC") := by
  unfold wildcardsFor
  apply List.filter_congr
  intro t _
  exact getBool_setBoolKey_ne _ _ _ _ (nfcKey_ne ("_wc_") t tname)

/-- Storing the attempted AFC wild-card pick does not change any
checkbox round whose keys all differ from the stored key. -/
lemma checkboxRound_set_wc (teams : List TeamRow) (st : SessionState)
    (sel : List String) (c mid tname : String)
    (hne : ∀ t, ¬ ((c ++ mid) ++ t = ("AFC_wc_") ++ tname)) :
    checkboxRound teams (setBoolKey st (("AFC_wc_") ++ tname) true) sel c mid
      = checkboxRound teams st sel c mid := by
  unfold checkboxRound
  apply List.filter_congr
  intro t _
  exact getBool_setBoolKey_ne _ _ _ _ (hne t)

/-- C8.  Attempting to store an AFC wild-card selection for a team whose
conference is NFC (and whose name does not start with `win_`) changes
nothing: the derived PickSet is identical to the one before the attempt,
and the team does not appear in the AFC wild-card selection afterwards —
the out-of-pool selection is rejected by construction. -/
theorem invalid_conference_wildcard_rejected (rows : List TeamRow)
    (st : SessionState) (tname : String)
    (hconf : ∀ r, r ∈ dedupByTeam rows → r.team = tname
      → conference r = ("NFC"))
    (hpre : isPre (("win_")).data tname.data = false) :
    derivedPickSet (dedupByTeam rows)
        (setBoolKey st (("AFC_wc_") ++ tname) true)
      = derivedPickSet (dedupByTeam rows) st
    ∧ tname ∉ wildcardsFor (dedupByTeam rows)
        (setBoolKey st (("AFC_wc_") ++ tname) true)
        (divisionWinners (dedupByTeam rows)
          (setBoolKey st (("AFC_wc_") ++ tname) true)) ("AFC") := by
  constructor
  · have hAwin : ∀ sel, checkboxRound (dedupByTeam rows)
        (setBoolKey st (("AFC_wc_") ++ tname) true) sel ("AFC") ("_wc_win_")
        = checkboxRound (dedupByTeam rows) st sel ("AFC") ("_wc_win_") :=
      fun sel => checkboxRound_set_wc _ _ sel _ _ _
        (fun t h => absurd h (fun hh => wcWinKey_reject hpre hh))
    have hAdiv : ∀ sel, checkboxRound (dedupByTeam rows)
        (setBoolKey st (("AFC_wc_") ++ tname) true) sel ("AFC") ("_div_win_")
        = checkboxRound (dedupByTeam rows) st sel ("AFC") ("_div_win_") :=
      fun sel => checkboxRound_set_wc _ _ sel _ _ _
        (fun t => divWinKey_ne t tname)
    have hAcc : ∀ sel, checkboxRound (dedupByTeam rows)
        (setBoolKey st (("AFC_wc_") ++ tname) true) sel ("AFC")
          ("_conf_champ_")
        = checkboxRound (dedupByTeam rows) st sel ("AFC") ("_conf_champ_") :=
      fun sel => checkboxRound_set_wc _ _ sel _ _ _
        (fun t => confChampKey_ne t tname)
    have hN : ∀ sel mid, checkboxRound (dedupByTeam rows)
        (setBoolKey st (("AFC_wc_") ++ tname) true) sel ("NFC") mid
        = checkboxRound (dedupByTeam rows) st sel ("NFC") mid :=
      fun sel mid => checkboxRound_set_wc _ _ sel _ _ _
        (fun t => nfcKey_ne mid t tname)
    simp only [derivedPickSet, divisionWinners_set_wc,
      wildcardsFor_set_wc_afc (dedupByTeam rows) st tname hconf,
      wildcardsFor_set_wc_nfc, hAwin, hAdiv, hAcc, hN, setBoolKey_sbStored]
  · intro hmem
    have hp := (List.mem_filter.mp hmem).1
    obtain ⟨r, hr, hrt, hrc, _⟩ := mem_wildcardPool hp
    exact absurd ((hconf r hr hrt).symm.trans hrc) (by decide)

/-- C8 witness: injecting an AFC wild-card attempt for NFC team N2 into
the complete demo session changes nothing. -/
theorem invalid_conference_wildcard_rejected_witness :
    derivedPickSet (dedupByTeam demoLeague)
        (setBoolKey demoFullState (("AFC_wc_") ++ ("N2")) true)
      = derivedPickSet (dedupByTeam demoLeague) demoFullState
    ∧ ("N2") ∉ wildcardsFor (dedupByTeam demoLeague)
        (setBoolKey demoFullState (("AFC_wc_") ++ ("N2")) true)
        (divisionWinners (dedupByTeam demoLeague)
          (setBoolKey demoFullState (("AFC_wc_") ++ ("N2")) true)) ("AFC") :=
  invalid_conference_wildcard_rejected demoLeague demoFullState ("N2")
    (by decide) (by decide)

end NFLSim
